import Mathlib

/-!
Shallow embedding of `scripts/makecrates.py` (stm32-rs).

The script scans a directory for `*.yaml` device-definition files, groups
them by the first seven characters of the filename (the "family"), and for
each family renders three text artifacts (Cargo manifest, README, lib.rs
module file) which it writes under the lower-cased family directory after a
blocking confirmation prompt.

Strings are modelled by Lean `String` (a list of Unicode scalar values,
matching Python `str` code-point semantics for slicing, comparison and
sorting).  Python's `str.lower` / `str.upper` are modelled by per-character
case maps (`pyLower` / `pyUpper`); the inputs the script manipulates are
ASCII filenames, on which these agree with Python.  The insertion-ordered
Python `dict` is modelled by an association list.  The effectful part of
`main` is modelled as a trace of events.
-/

namespace Makecrates

/-- Decidability of the lexicographic order on `String` by direct
comparison of the underlying character lists.  The library's iterator-based
decision procedure (`String.ltb`) does not reduce inside the kernel, so
concrete instances could not be settled by `decide` with it; this instance
decides the very same order. -/
instance decLeString (a b : String) : Decidable (a ≤ b) :=
  decidable_of_iff (a.toList ≤ b.toList) String.le_iff_toList_le.symm

/-- Python `str.lower` on the ASCII filenames the script manipulates:
lower-case each character.  Identical character map to `String.toLower`,
but by a plain list `map`, which the kernel can evaluate. -/
def pyLower (s : String) : String := ⟨s.data.map Char.toLower⟩

/-- Python `str.upper` on ASCII strings, as a plain list `map`. -/
def pyUpper (s : String) : String := ⟨s.data.map Char.toUpper⟩

/-- The fixed crate version interpolated into every template
(the script's module-level constant `VERSION = "0.1.1"`). -/
def VERSION : String := "0.1.1"

/-- Index of the last occurrence of a dot in a character list, if any. -/
def lastDotIdx : List Char → Option Nat
  | [] => none
  | c :: cs =>
    match lastDotIdx cs with
    | some i => some (i + 1)
    | none => if c = '.' then some 0 else none

/-- Python `os.path.splitext`, restricted to plain filenames (no directory
separators, which is all the script ever passes to it): split at the last
dot, except that a filename whose every character before that dot is itself
a dot has no extension (so `".yaml"` and `"..yaml"` do not split). -/
def splitext (p : String) : String × String :=
  match lastDotIdx p.data with
  | none => (p, "")
  | some i =>
    if (p.data.take i).all (fun c => c = '.') then (p, "")
    else (⟨p.data.take i⟩, ⟨p.data.drop i⟩)

/-- The family key of a definition filename: `yamlfile[:7]`, i.e. the first
seven characters (fewer if the filename is shorter), case preserved. -/
def familyKey (yamlfile : String) : String := yamlfile.take 7

/-- The device key of a definition filename:
`os.path.splitext(yamlfile)[0].lower()`. -/
def deviceKey (yamlfile : String) : String := pyLower (splitext yamlfile).1

/-- Python `sorted` on a list of strings: the unique permutation that is
sorted for the lexicographic code-point order (Python's `<` on `str`). -/
def sortStr (l : List String) : List String := List.insertionSort (· ≤ ·) l

/-- The feature lines produced by `make_features`, one line
`"<device> = []"` per device, devices sorted. -/
def featureLines (devices : List String) : List String :=
  (sortStr devices).map (fun d => d ++ " = []")

/-- The script's `make_features`: newline-joined feature lines. -/
def make_features (devices : List String) : String :=
  String.intercalate "\n" (featureLines devices)

/-- The per-device block produced inside `make_mods`:
`'#[cfg(feature = "{0}")]\npub mod {0};\n'.format(d)`. -/
def modBlock (d : String) : String :=
  "#[cfg(feature = \"" ++ d ++ "\")]\npub mod " ++ d ++ ";\n"

/-- The script's `make_mods`: newline-joined module blocks, devices
sorted. -/
def make_mods (devices : List String) : String :=
  String.intercalate "\n" ((sortStr devices).map modBlock)

/-- The readme bullet for one device:
`"* " + d.upper().replace("X", "x")`.  Python's `str.replace` with the
single-character pattern `"X"` replaces every occurrence of that
character. -/
def deviceBullet (d : String) : String :=
  "* " ++ ⟨(pyUpper d).data.map (fun c => if c = 'X' then 'x' else c)⟩

/-- The readme supported-devices block built in `main`:
`"\n".join("* " + d.upper().replace("X", "x") for d in devices[family])`,
applied to the (already sorted) device list of the family. -/
def deviceList (devices : List String) : String :=
  String.intercalate "\n" (devices.map deviceBullet)

/-- `CARGO_TOML_TPL.format(family=..., crate=..., version=..., features=...)`. -/
def CARGO_TOML_TPL (crate version family features : String) : String :=
  "[package]\nname = \"" ++ crate ++ "\"\nversion = \"" ++ version ++
  "\"\nauthors = [\"Adam Greig <adam@adamgreig.com>\"]\n" ++
  "description = \"Device support crates for " ++ family ++ " devices\"\n" ++
  "repository = \"https://github.com/adamgreig/stm32-rs\"\n" ++
  "readme = \"README.md\"\n" ++
  "keywords = [\"stm32\", \"svd2rust\", \"no_std\", \"embedded\"]\n" ++
  "categories = [\"embedded\", \"no-std\"]\n" ++
  "license = \"MIT/Apache-2.0\"\n\n[dependencies]\n" ++
  "bare-metal = \"0.1.1\"\nvcell = \"0.1.0\"\ncortex-m = \"0.4.3\"\n" ++
  "cortex-m-rt = \"0.4.0\"\n\n[features]\ndefault = []\nrt = []\n" ++
  features ++ "\n"

/-- `SRC_LIB_RS_TPL.format(family=..., mods=...)`. -/
def SRC_LIB_RS_TPL (family mods : String) : String :=
  "//! Peripheral access API for " ++ family ++ " microcontrollers\n" ++
  "//! (generated using [svd2rust])\n" ++
  "//! [svd2rust]: https://github.com/japaric/svd2rust\n//!\n" ++
  "//! You can find an overview of the API here:\n" ++
  "//! https://docs.rs/svd2rust/0.8.1/svd2rust/#peripheral-api\n//!\n" ++
  "//! For more details see the README here:\n" ++
  "//! https://github.com/adamgreig/stm32-rs\n\n" ++
  "#![allow(non_camel_case_types)]\n#![allow(private_no_mangle_statics)]\n" ++
  "#![feature(const_fn)]\n#![feature(try_from)]\n#![no_std]\n\n" ++
  "#![cfg_attr(feature = \"rt\", feature(global_asm))]\n" ++
  "#![cfg_attr(feature = \"rt\", feature(use_extern_macros))]\n" ++
  "#![cfg_attr(feature = \"rt\", feature(used))]\n\n" ++
  "extern crate vcell;\nextern crate bare_metal;\nextern crate cortex_m;\n" ++
  "\n#[cfg(feature = \"rt\")]\nextern crate cortex_m_rt;\n" ++
  "#[cfg(feature = \"rt\")]\n" ++
  "pub use cortex_m_rt::\x7bdefault_handler, exception\x7d;\n\n" ++
  mods ++ "\n"

/-- `README_TPL.format(crate=..., family=..., version=..., device=...,
devices=...)`. -/
def README_TPL (crate family version device devices : String) : String :=
  "# " ++ crate ++ "\n" ++
  "This crate provides an autogenerated API for access to " ++ family ++
  " peripherals.\n" ++
  "The API is generated using [svd2rust] with patched svd files containing\n" ++
  "extensive type-safe support. For more information please see the [main repo].\n\n" ++
  "[svd2rust]: https://github.com/japaric/svd2rust\n" ++
  "[main repo]: https://github.com/adamgreig/stm32-rs\n\n" ++
  "## Usage\n" ++
  "Each device supported by this crate is behind a feature gate so that you only\n" ++
  "compile the device(s) you want. To use, in your Cargo.toml:\n\n" ++
  "```toml\n[dependencies." ++ crate ++ "]\nversion = \"" ++ version ++
  "\"\nfeatures = [\"" ++ device ++ "\", \"rt\"]\n```\n\n" ++
  "The `rt` feature is optional and brings in support for `cortex-m-rt`.\n\n" ++
  "For details on the autogenerated API, please see:\n" ++
  "https://docs.rs/svd2rust/0.8.1/svd2rust/#peripheral-api\n\n" ++
  "## Supported Devices\n\n" ++
  devices ++ "\n"

/-- The per-family rendering in the body of `main`'s second loop, with the
version string as an explicit parameter: sorts the device list, then builds
the three artifact texts.  Evaluating `devices[family][0]` on an empty list
would raise `IndexError` in Python; that unreachable path is the `none`
branch. -/
def renderFamilyWith (family : String) (devs : List String)
    (version : String) : Option (String × String × String) :=
  let ds := sortStr devs
  match ds with
  | [] => none
  | d0 :: _ =>
    let crate := pyLower family
    let ufamily := pyUpper family
    some (CARGO_TOML_TPL crate version ufamily (make_features ds),
          README_TPL crate ufamily version d0 (deviceList ds),
          SRC_LIB_RS_TPL ufamily (make_mods ds))

/-- The per-family rendering exactly as `main` performs it, with the fixed
`VERSION` constant. -/
def renderFamily (family : String) (devs : List String) :
    Option (String × String × String) :=
  renderFamilyWith family devs VERSION

/-- One step of the grouping loop in `main`: append `dev` to the entry of
`fam` in the insertion-ordered map, creating the entry (at the end, as a
Python `dict` does) if `fam` has not been seen before. -/
def addDevice (m : List (String × List String)) (fam dev : String) :
    List (String × List String) :=
  match m with
  | [] => [(fam, [dev])]
  | (k, vs) :: rest =>
    if k = fam then (k, vs ++ [dev]) :: rest
    else (k, vs) :: addDevice rest fam dev

/-- The discovery loop of `main`: fold over the matched filenames (the
basenames of the glob results, in glob order), grouping each device key
under its family key. -/
def discover (files : List String) : List (String × List String) :=
  files.foldl (fun m f => addDevice m (familyKey f) (deviceKey f)) []

/-- Lookup in the insertion-ordered map (`devices[family]`). -/
def lookupFam : List (String × List String) → String → Option (List String)
  | [], _ => none
  | (k, vs) :: rest, fam => if k = fam then some vs else lookupFam rest fam

/-- Whether a directory entry matches the glob pattern `*.yaml`: `*` never
matches a leading dot, and the literal suffix `.yaml` must be present. -/
def globMatchYaml (name : String) : Bool :=
  name.data.drop (name.data.length - 5) = ".yaml".data
  && !(name.data.headI = '.')

/-- The call `glob.glob(os.path.join(sys.argv[1], "*.yaml"))`, up to taking
basenames.  The input directory is `none` when missing or unreadable and
`some entries` when readable; `glob` swallows every `OSError` raised while
scanning, so a missing or unreadable directory yields no matches rather
than an exception, and a readable one yields its matching entries in
directory order.  The script immediately takes `os.path.basename` of each
match, which undoes the directory part `os.path.join` added, so the model
works directly with entry names. -/
def globYaml (dir : Option (List String)) : List String :=
  match dir with
  | none => []
  | some entries => entries.filter globMatchYaml

/-- Whether a string starts with the character `/` (the `b.startswith(sep)`
test of `os.path.join`). -/
def startsWithSlash (s : String) : Bool :=
  match s.data with
  | c :: _ => c = '/'
  | [] => false

/-- Whether a string ends with the character `/` (the `a.endswith(sep)`
test of `os.path.join`). -/
def endsWithSlash (s : String) : Bool :=
  match s.data.getLast? with
  | some c => c = '/'
  | none => false

/-- `os.path.join(a, b)` for a single relative or absolute component `b`
under POSIX rules: an absolute `b` replaces `a`; otherwise a separator is
inserted unless `a` is empty or already ends with one. -/
def pathJoin (a b : String) : String :=
  if startsWithSlash b then b
  else if a = "" || endsWithSlash a then a ++ b
  else a ++ "/" ++ b

/-- The string printed before the confirmation prompt:
`", ".join(x.lower() + "/" for x in devices)`, over the family keys in
insertion order. -/
def dirsLine (fams : List (String × List String)) : String :=
  String.intercalate ", " (fams.map (fun kv => pyLower kv.1 ++ "/"))

/-- One observable step of the effectful part of the program. -/
inductive Event where
  | print (s : String)
  | readDir (pattern : String)
  | prompt (msg : String)
  | makedirs (path : String)
  | writeFile (path : String) (content : String)
  deriving Repr, DecidableEq

/-- Whether an event mutates the filesystem (creates a directory or writes
a file). -/
def Event.isWrite : Event → Bool
  | .makedirs _ => true
  | .writeFile _ _ => true
  | _ => false

/-- Whether an event touches the filesystem at all (also counting the
read-only directory scan). -/
def Event.isFsAccess : Event → Bool
  | .readDir _ => true
  | .makedirs _ => true
  | .writeFile _ _ => true
  | _ => false

/-- Whether an event is the blocking confirmation prompt. -/
def Event.isPromptEv : Event → Bool
  | .prompt _ => true
  | _ => false

/-- The filesystem mutations performed for one family in the second loop of
`main`: create `crate/src`, then write `Cargo.toml`, `README.md` and
`src/lib.rs` with the rendered texts.  The `none` branch of the renderer is
the unreachable `IndexError` on an empty device list, on which the process
would die before emitting any event for the family. -/
def famPersistEvents (family : String) (devs : List String) : List Event :=
  match renderFamily family devs with
  | none => []
  | some (cargoToml, readme, libRs) =>
    let crate := pyLower family
    [.makedirs (pathJoin crate "src"),
     .writeFile (pathJoin crate "Cargo.toml") cargoToml,
     .writeFile (pathJoin crate "README.md") readme,
     .writeFile (pathJoin (pathJoin crate "src") "lib.rs") libRs]

/-- The filesystem mutations of the second loop of `main`, families in
insertion (discovery) order. -/
def persistEvents (fams : List (String × List String)) : List Event :=
  fams.flatMap (fun kv => famPersistEvents kv.1 kv.2)

/-- The header line printed before the directory list. -/
def dirsHeader : String := "Going to create/update the following directories:"

/-- The text of the blocking confirmation prompt. -/
def promptMsg : String := "Enter to continue, ctrl-C to cancel"

/-- The body of `main` after the glob, as an event trace: group the matched
filenames, print the target directories, block on `input(...)`, then
persist every family.  `promptInput` is `some line` when the operator
enters any line (the script ignores its content) and `none` when the
operator interrupts, in which case the uncaught `KeyboardInterrupt` kills
the process before any mutation. -/
def mainRun (files : List String) (promptInput : Option String) :
    List Event :=
  let fams := discover files
  [.print dirsHeader, .print (dirsLine fams), .prompt promptMsg]
    ++ (match promptInput with
        | none => []
        | some _ => persistEvents fams)

/-- The usage message of the `__main__` guard:
`"Usage: {} <yaml directory>".format(sys.argv[0])`. -/
def usageMsg (argv0 : String) : String :=
  "Usage: " ++ argv0 ++ " <yaml directory>"

/-- The whole process:  with other than exactly two `sys.argv` entries
(script name plus one positional argument) it prints the usage text and
exits with status 1; otherwise it scans the input directory and runs
`main`'s body.  The exit code is `some 0` for normal completion, `some 1`
for the usage error, and `none` when the run is aborted by the operator
interrupt (no ordinary exit). -/
def runProgram (argv : List String) (dir : Option (List String))
    (promptInput : Option String) : List Event × Option Nat :=
  if argv.length ≠ 2 then
    ([.print (usageMsg (argv.headD ""))], some 1)
  else
    (.readDir (pathJoin (argv.getD 1 "") "*.yaml")
       :: mainRun (globYaml dir) promptInput,
     match promptInput with
     | none => none
     | some _ => some 0)

/-- The output directory of a family, `crate = family.lower()`. -/
def crateDir (family : String) : String := pyLower family

/-- The three file paths written for a family. -/
def famWritePaths (family : String) : List String :=
  [pathJoin (crateDir family) "Cargo.toml",
   pathJoin (crateDir family) "README.md",
   pathJoin (pathJoin (crateDir family) "src") "lib.rs"]

/-! ## Properties of the sort -/

theorem sortStr_perm (l : List String) : (sortStr l).Perm l :=
  List.perm_insertionSort _ l

theorem sortStr_sorted (l : List String) :
    List.Sorted (· ≤ ·) (sortStr l) :=
  List.sorted_insertionSort _ l

theorem sortStr_congr {l₁ l₂ : List String} (h : l₁.Perm l₂) :
    sortStr l₁ = sortStr l₂ :=
  List.eq_of_perm_of_sorted
    ((sortStr_perm l₁).trans (h.trans (sortStr_perm l₂).symm))
    (sortStr_sorted l₁) (sortStr_sorted l₂)

theorem sortStr_idem (l : List String) : sortStr (sortStr l) = sortStr l :=
  sortStr_congr (sortStr_perm l)

/-- C2: rendering is deterministic: two renderer calls with identical
family key, device list and version string produce identical manifest,
readme and source-module text.  The renderer is embedded as a total pure
function on strings — the source lines it translates perform only string
formatting, no filesystem or network operation — so side-effect freedom is
carried by the embedding itself and byte-identity of the outputs is string
equality. -/
theorem c2_render_deterministic (fam₁ fam₂ : String)
    (devs₁ devs₂ : List String) (v₁ v₂ : String)
    (hf : fam₁ = fam₂) (hd : devs₁ = devs₂) (hv : v₁ = v₂) :
    renderFamilyWith fam₁ devs₁ v₁ = renderFamilyWith fam₂ devs₂ v₂ := by
  subst hf
  subst hd
  subst hv
  rfl

/-- Witness for C2 at a concrete input. -/
theorem c2_render_deterministic_witness :
    renderFamilyWith "stm32f4" ["stm32f401"] "0.1.1" =
      renderFamilyWith "stm32f4" ["stm32f401"] "0.1.1" :=
  c2_render_deterministic "stm32f4" "stm32f4" ["stm32f401"] ["stm32f401"]
    "0.1.1" "0.1.1" rfl rfl rfl

/-- C4: rendering is invariant under input order, and sorting is
idempotent: the feature block, module block and readme device block are
equal for any two permutations of a device list, and rendering an
already-sorted list renders identically to the original. -/
theorem c4_order_invariant (devs devs' : List String)
    (h : devs.Perm devs') :
    make_features devs = make_features devs'
    ∧ make_mods devs = make_mods devs'
    ∧ deviceList (sortStr devs) = deviceList (sortStr devs')
    ∧ sortStr (sortStr devs) = sortStr devs
    ∧ make_features (sortStr devs) = make_features devs
    ∧ make_mods (sortStr devs) = make_mods devs := by
  have hs : sortStr devs = sortStr devs' := sortStr_congr h
  have hi : sortStr (sortStr devs) = sortStr devs := sortStr_idem devs
  refine ⟨?_, ?_, ?_, hi, ?_, ?_⟩
  · show String.intercalate "\n" ((sortStr devs).map _) = _
    rw [hs]
    rfl
  · show String.intercalate "\n" ((sortStr devs).map _) = _
    rw [hs]
    rfl
  · rw [hs]
  · show String.intercalate "\n" ((sortStr (sortStr devs)).map _) = _
    rw [hi]
    rfl
  · show String.intercalate "\n" ((sortStr (sortStr devs)).map _) = _
    rw [hi]
    rfl

/-- Witness for C4 at a concrete pair of permuted lists. -/
theorem c4_order_invariant_witness :
    make_features ["stm32f411", "stm32f401"] =
      make_features ["stm32f401", "stm32f411"] :=
  (c4_order_invariant _ _ (List.Perm.swap "stm32f401" "stm32f411" [])).1

/-- C5: the readme supported-devices block renders, in lexicographic order
of device keys, one bullet per device consisting of the device key
upper-cased with every `X` then replaced by lower-case `x`; in particular
device key `stm32f4xx` renders as `* STM32F4xx`. -/
theorem c5_readme_bullets (devs : List String) :
    deviceList (sortStr devs) =
      String.intercalate "\n" ((sortStr devs).map (fun d =>
        "* " ++ ⟨(pyUpper d).data.map (fun c => if c = 'X' then 'x' else c)⟩))
    ∧ List.Sorted (· ≤ ·) (sortStr devs)
    ∧ deviceBullet "stm32f4xx" = "* STM32F4xx" :=
  ⟨rfl, sortStr_sorted devs, by decide⟩

/-! ## Properties of discovery -/

theorem lookupFam_addDevice (m : List (String × List String))
    (fam' dev fam : String) :
    lookupFam (addDevice m fam' dev) fam =
      if fam = fam' then some (((lookupFam m fam).getD []) ++ [dev])
      else lookupFam m fam := by
  induction m with
  | nil =>
    by_cases h : fam = fam'
    · simp [addDevice, lookupFam, h]
    · simp [addDevice, lookupFam, h, Ne.symm h]
  | cons kv rest ih =>
    obtain ⟨k, vs⟩ := kv
    by_cases hk : k = fam'
    · subst hk
      by_cases h : fam = k
      · simp [addDevice, lookupFam, h]
      · simp [addDevice, lookupFam, h, Ne.symm h]
    · by_cases h : k = fam
      · subst h
        simp [addDevice, lookupFam, hk, Ne.symm hk]
      · simp [addDevice, lookupFam, hk, h, ih]

theorem lookupFam_discoverAux (files : List String)
    (m : List (String × List String)) (fam : String) :
    lookupFam
        (files.foldl (fun acc f => addDevice acc (familyKey f) (deviceKey f)) m)
        fam =
      match lookupFam m fam with
      | some vs =>
          some (vs ++ (files.filter (fun f => familyKey f = fam)).map deviceKey)
      | none =>
          if files.filter (fun f => familyKey f = fam) = [] then none
          else some ((files.filter (fun f => familyKey f = fam)).map deviceKey) := by
  induction files generalizing m with
  | nil => cases h : lookupFam m fam <;> simp [h]
  | cons f fs ih =>
    rw [List.foldl_cons, ih, lookupFam_addDevice]
    by_cases hf : familyKey f = fam
    · have hf' : fam = familyKey f := hf.symm
      cases h : lookupFam m fam <;>
        simp [h, hf', List.filter_cons, List.append_assoc]
    · have hf' : ¬ fam = familyKey f := fun hh => hf hh.symm
      cases h : lookupFam m fam <;>
        simp [h, hf, hf', List.filter_cons]

/-- C1: discovery groups every definition filename under the family key
`yamlfile[:7]` (case preserved, silently shorter for short names, since
`String.take` returns the whole string when it is shorter), appending the
device key — the filename with its extension removed, lower-cased — to that
family's list in encounter order, and a family's entry exists exactly when
some discovered filename has that family key (it is created with its first
device). -/
theorem c1_grouping (files : List String) (fam : String) :
    (∀ f : String, familyKey f = f.take 7
        ∧ deviceKey f = pyLower (splitext f).1)
    ∧ lookupFam (discover files) fam =
        (if files.filter (fun f => familyKey f = fam) = [] then none
         else some ((files.filter (fun f => familyKey f = fam)).map deviceKey)) := by
  refine ⟨fun f => ⟨rfl, rfl⟩, ?_⟩
  rw [discover, lookupFam_discoverAux files [] fam]
  rfl

/-- Every device list in the accumulator stays non-empty through one
grouping step. -/
theorem addDevice_nonempty (m : List (String × List String))
    (fam dev : String) (h : ∀ kv ∈ m, kv.2 ≠ []) :
    ∀ kv ∈ addDevice m fam dev, kv.2 ≠ [] := by
  induction m with
  | nil => simp [addDevice]
  | cons kv₀ rest ih =>
    obtain ⟨k, vs⟩ := kv₀
    by_cases hk : k = fam
    · subst hk
      intro kv hkv
      simp only [addDevice, if_pos rfl] at hkv
      rcases List.mem_cons.mp hkv with h₁ | h₁
      · subst h₁
        simp
      · exact h kv (List.mem_cons_of_mem _ h₁)
    · intro kv hkv
      simp only [addDevice, if_neg hk] at hkv
      rcases List.mem_cons.mp hkv with h₁ | h₁
      · subst h₁
        exact h (k, vs) (List.mem_cons_self _ _)
      · exact ih (fun kv' hkv' => h kv' (List.mem_cons_of_mem _ hkv')) kv h₁

theorem discoverAux_nonempty (files : List String)
    (m : List (String × List String)) (h : ∀ kv ∈ m, kv.2 ≠ []) :
    ∀ kv ∈ files.foldl
        (fun acc f => addDevice acc (familyKey f) (deviceKey f)) m,
      kv.2 ≠ [] := by
  induction files generalizing m with
  | nil => exact h
  | cons f fs ih =>
    rw [List.foldl_cons]
    exact ih _ (addDevice_nonempty m _ _ h)

/-- C10: every family entry produced by discovery carries a non-empty
device list (an entry is created together with its first device and only
ever appended to), so the renderer's access to the smallest device key —
`devices[family][0]` after sorting — succeeds for every discovered
family. -/
theorem c10_nonempty_families (files : List String) (fam : String)
    (devs : List String) (h : (fam, devs) ∈ discover files) :
    devs ≠ [] ∧ (renderFamily fam devs).isSome = true := by
  have hne : devs ≠ [] :=
    discoverAux_nonempty files [] (by simp) (fam, devs) h
  refine ⟨hne, ?_⟩
  have hsne : sortStr devs ≠ [] := by
    intro hnil
    exact hne ((sortStr_perm devs).symm.trans (hnil ▸ List.Perm.refl _)).eq_nil
  unfold renderFamily renderFamilyWith
  cases hs : sortStr devs with
  | nil => exact absurd hs hsne
  | cons d ds => simp [hs]

/-- Witness for C10 at a concrete discovered directory. -/
theorem c10_nonempty_families_witness :
    (["stm32f401"] : List String) ≠ []
    ∧ (renderFamily "stm32f4" ["stm32f401"]).isSome = true :=
  c10_nonempty_families ["stm32f401.yaml"] "stm32f4" ["stm32f401"] (by decide)

/-! ## Properties of the effectful run -/

/-- C7: nothing is written before the confirmation prompt completes.  The
trace up to the prompt consists only of the two prints — the header and the
target-directory list computed from the completed discovery — with no
filesystem mutation; an interrupt at the prompt (input `none`) leaves a run
with zero writes; any entered line (its content is ignored) proceeds to the
persistence phase. -/
theorem c7_no_write_before_prompt (files : List String)
    (promptInput : Option String) (line : String) :
    (mainRun files promptInput).takeWhile (fun e => !e.isPromptEv) =
        [.print dirsHeader, .print (dirsLine (discover files))]
    ∧ (∀ e ∈ (mainRun files promptInput).takeWhile (fun e => !e.isPromptEv),
        e.isWrite = false)
    ∧ (mainRun files none).filter Event.isWrite = []
    ∧ mainRun files (some line) =
        [.print dirsHeader, .print (dirsLine (discover files)),
         .prompt promptMsg] ++ persistEvents (discover files) := by
  have h₁ : (mainRun files promptInput).takeWhile (fun e => !e.isPromptEv) =
      [.print dirsHeader, .print (dirsLine (discover files))] := by
    simp [mainRun, List.takeWhile_cons, Event.isPromptEv]
  refine ⟨h₁, ?_, ?_, rfl⟩
  · intro e he
    rw [h₁] at he
    rcases List.mem_cons.mp he with h | h
    · subst h
      rfl
    · rcases List.mem_cons.mp h with h' | h'
      · subst h'
        rfl
      · exact absurd h' (List.not_mem_nil e)
  · simp [mainRun, Event.isWrite]

/-- C8: with other than exactly one positional argument the process prints
the usage line to standard output, exits with status 1, and its trace holds
no filesystem access of any kind; with exactly one positional argument the
run scans the input directory and proceeds into `main`'s body. -/
theorem c8_usage_guard (argv : List String) (dir : Option (List String))
    (promptInput : Option String) :
    (argv.length ≠ 2 →
      runProgram argv dir promptInput =
          ([.print (usageMsg (argv.headD ""))], some 1)
      ∧ ∀ e ∈ (runProgram argv dir promptInput).1, e.isFsAccess = false)
    ∧ (argv.length = 2 →
      (runProgram argv dir promptInput).1 =
        .readDir (pathJoin (argv.getD 1 "") "*.yaml")
          :: mainRun (globYaml dir) promptInput) := by
  constructor
  · intro h
    have hr : runProgram argv dir promptInput =
        ([.print (usageMsg (argv.headD ""))], some 1) := by
      simp [runProgram, h]
    refine ⟨hr, ?_⟩
    rw [hr]
    intro e he
    rcases List.mem_cons.mp he with h' | h'
    · subst h'
      rfl
    · exact absurd h' (List.not_mem_nil e)
  · intro h
    simp [runProgram, h]

/-- Witness for C8 with zero positional arguments. -/
theorem c8_usage_guard_witness :
    runProgram ["scripts/makecrates.py"] none none =
      ([.print (usageMsg "scripts/makecrates.py")], some 1) :=
  ((c8_usage_guard ["scripts/makecrates.py"] none none).1 (by decide)).1

/-- C6 counterexample: with a missing input directory the run does not fail
at all — `glob` swallows the `OSError` and returns no matches — so the
process prints an empty directory list, prompts, completes with exit status
0 and writes nothing, contradicting the claimed `FilesystemError`. -/
theorem c6_missing_dir_not_error :
    (runProgram ["scripts/makecrates.py", "missing"] none (some "")).2 = some 0
    ∧ (runProgram ["scripts/makecrates.py", "missing"] none
        (some "")).1.filter Event.isWrite = []
    ∧ discover (globYaml none) = [] := by
  decide

/-- C6 amended: a missing or unreadable input directory is indistinguishable
from a directory with zero matching definition files: discovery yields the
empty family set, the run completes normally (exit status 0) with no
artifact written, and this is not an error. -/
theorem c6_empty_discovery (argv : List String) (line : String)
    (entries : List String) (h : argv.length = 2)
    (hm : entries.filter globMatchYaml = []) :
    (runProgram argv none (some line)).2 = some 0
    ∧ (runProgram argv none (some line)).1.filter Event.isWrite = []
    ∧ discover (globYaml none) = []
    ∧ runProgram argv (some entries) (some line) =
        runProgram argv none (some line)
    ∧ discover (globYaml (some entries)) = [] := by
  have hg : globYaml (some entries) = globYaml none := by
    simp [globYaml, hm]
  refine ⟨?_, ?_, rfl, ?_, ?_⟩
  · simp [runProgram, h]
  · simp [runProgram, h, mainRun, Event.isWrite, globYaml, discover,
      persistEvents]
  · rw [runProgram, runProgram, hg]
  · rw [hg]
    rfl

/-- Witness for C6 (amended) at a concrete argv and directory listing. -/
theorem c6_empty_discovery_witness :
    (runProgram ["scripts/makecrates.py", "devices"] none (some "")).2 = some 0
    ∧ runProgram ["scripts/makecrates.py", "devices"] (some ["notes.txt"])
        (some "") = runProgram ["scripts/makecrates.py", "devices"] none (some "") :=
  ⟨(c6_empty_discovery ["scripts/makecrates.py", "devices"] "" ["notes.txt"]
      (by decide) (by decide)).1,
   (c6_empty_discovery ["scripts/makecrates.py", "devices"] "" ["notes.txt"]
      (by decide) (by decide)).2.2.2.1⟩

/-! ## The feature block -/

/-- Appending the fixed feature suffix is injective. -/
theorem featureLine_inj : Function.Injective (fun d : String => d ++ " = []") := by
  intro a b h
  apply String.ext
  have h' := congrArg String.data h
  rw [String.data_append, String.data_append] at h'
  exact List.append_cancel_right h'

/-- C3 counterexample: the same device key can reach one family twice
(here via `stm32f4X1.yaml` and `stm32f4x1.yaml`, whose stems lower-case to
the same key while their 7-character family keys agree), and the renderer
then emits that device's feature line twice, not exactly once. -/
theorem c3_duplicate_feature_line :
    lookupFam (discover ["stm32f4X1.yaml", "stm32f4x1.yaml"]) "stm32f4" =
        some ["stm32f4x1", "stm32f4x1"]
    ∧ "stm32f4x1" ∈ (["stm32f4x1", "stm32f4x1"] : List String)
    ∧ (featureLines ["stm32f4x1", "stm32f4x1"]).count ("stm32f4x1" ++ " = []") = 2 := by
  decide

/-- C3 amended: for every duplicate-free device list, the feature lines
emitted in the manifest block are exactly the lines `d ++ " = []"` for the
device keys `d` of the list, each appearing exactly once. -/
theorem c3_feature_names_exact (devs : List String) (hnd : devs.Nodup) :
    make_features devs = String.intercalate "\n" (featureLines devs)
    ∧ (∀ d : String, d ∈ devs ↔ (d ++ " = []") ∈ featureLines devs)
    ∧ (∀ d : String, d ∈ devs → (featureLines devs).count (d ++ " = []") = 1)
    ∧ (∀ d : String, d ∉ devs → (featureLines devs).count (d ++ " = []") = 0) := by
  have hperm := sortStr_perm devs
  refine ⟨rfl, ?_, ?_, ?_⟩
  · intro d
    constructor
    · intro hd
      exact List.mem_map.mpr ⟨d, hperm.mem_iff.mpr hd, rfl⟩
    · intro hd
      rcases List.mem_map.mp hd with ⟨d', hd', he⟩
      exact hperm.mem_iff.mp (featureLine_inj he ▸ hd')
  · intro d hd
    have hc : (featureLines devs).count (d ++ " = []") =
        (sortStr devs).count d := by
      simpa [featureLines] using
        List.count_map_of_injective (sortStr devs) _ featureLine_inj d
    rw [hc, hperm.count_eq]
    exact List.count_eq_one_of_mem hnd hd
  · intro d hd
    have hc : (featureLines devs).count (d ++ " = []") =
        (sortStr devs).count d := by
      simpa [featureLines] using
        List.count_map_of_injective (sortStr devs) _ featureLine_inj d
    rw [hc, hperm.count_eq]
    exact List.count_eq_zero.mpr hd

/-- Witness for C3 (amended) at a concrete duplicate-free device list. -/
theorem c3_feature_names_exact_witness :
    (["stm32f411", "stm32f401"] : List String).Nodup
    ∧ (featureLines ["stm32f411", "stm32f401"]).count ("stm32f401" ++ " = []") = 1 :=
  ⟨by decide,
   (c3_feature_names_exact ["stm32f411", "stm32f401"] (by decide)).2.2.1
     "stm32f401" (by decide)⟩

/-! ## Output paths -/

/-- Two decompositions of a character list around a separator that occurs
in neither left part have equal left parts. -/
theorem noSlashSplit (l₁ r₁ l₂ r₂ : List Char)
    (h₁ : '/' ∉ l₁) (h₂ : '/' ∉ l₂)
    (h : l₁ ++ '/' :: r₁ = l₂ ++ '/' :: r₂) : l₁ = l₂ := by
  induction l₁ generalizing l₂ with
  | nil =>
    cases l₂ with
    | nil => rfl
    | cons c cs =>
      rw [List.nil_append, List.cons_append] at h
      injection h with hc _
      exact absurd (hc ▸ List.mem_cons_self c cs) h₂
  | cons c cs ih =>
    cases l₂ with
    | nil =>
      rw [List.cons_append, List.nil_append] at h
      injection h with hc _
      exact absurd (hc ▸ List.mem_cons_self c cs) h₁
    | cons c' cs' =>
      rw [List.cons_append, List.cons_append] at h
      injection h with hc ht
      have hcs : cs = cs' :=
        ih cs' (fun hm => h₁ (List.mem_cons_of_mem _ hm))
          (fun hm => h₂ (List.mem_cons_of_mem _ hm)) ht
      rw [hc, hcs]

/-- A string without `/` does not end with `/`. -/
theorem endsWithSlash_eq_false (a : String) (h : '/' ∉ a.data) :
    endsWithSlash a = false := by
  unfold endsWithSlash
  cases hl : a.data.getLast? with
  | none => rfl
  | some c =>
    have hc : c ∈ a.data := List.mem_of_mem_getLast? hl
    have hne : ¬ c = '/' := fun hc' => h (hc' ▸ hc)
    simp [hne]

/-- On a non-empty separator-free left component, `os.path.join` inserts
exactly one separator. -/
theorem pathJoin_noSlash (a b : String) (ha : a ≠ "")
    (hs : '/' ∉ a.data) (hb : startsWithSlash b = false) :
    pathJoin a b = a ++ "/" ++ b := by
  unfold pathJoin
  simp [hb, ha, endsWithSlash_eq_false a hs]

/-- Every path written for a family decomposes as the crate directory, one
separator, and one of the three fixed relative paths. -/
theorem famWritePaths_data (fam : String) (ha : crateDir fam ≠ "")
    (hs : '/' ∉ (crateDir fam).data) :
    ∀ p ∈ famWritePaths fam, ∃ suffix,
      suffix ∈ [("Cargo.toml" : String).data, ("README.md" : String).data,
        ("src/lib.rs" : String).data]
      ∧ p.data = (crateDir fam).data ++ '/' :: suffix := by
  have h1 : pathJoin (crateDir fam) "Cargo.toml" =
      crateDir fam ++ "/" ++ "Cargo.toml" :=
    pathJoin_noSlash _ _ ha hs (by decide)
  have h2 : pathJoin (crateDir fam) "README.md" =
      crateDir fam ++ "/" ++ "README.md" :=
    pathJoin_noSlash _ _ ha hs (by decide)
  have h3a : pathJoin (crateDir fam) "src" = crateDir fam ++ "/" ++ "src" :=
    pathJoin_noSlash _ _ ha hs (by decide)
  have hne : crateDir fam ++ "/" ++ "src" ≠ "" := by
    intro hcontra
    have := congrArg String.data hcontra
    simp [String.data_append] at this
  have hends : endsWithSlash (crateDir fam ++ "/" ++ "src") = false := by
    unfold endsWithSlash
    rw [String.data_append, List.getLast?_append]
    rfl
  have hb : startsWithSlash "lib.rs" = false := by decide
  have h3 : pathJoin (pathJoin (crateDir fam) "src") "lib.rs" =
      (crateDir fam ++ "/" ++ "src") ++ "/" ++ "lib.rs" := by
    rw [h3a]
    unfold pathJoin
    simp [hb, hne, hends]
  intro p hp
  rcases List.mem_cons.mp hp with hp₁ | hp
  · refine ⟨("Cargo.toml" : String).data, by simp, ?_⟩
    subst hp₁
    rw [h1]
    simp [String.data_append]
  rcases List.mem_cons.mp hp with hp₂ | hp
  · refine ⟨("README.md" : String).data, by simp, ?_⟩
    subst hp₂
    rw [h2]
    simp [String.data_append]
  rcases List.mem_cons.mp hp with hp₃ | hp
  · refine ⟨("src/lib.rs" : String).data, by simp, ?_⟩
    subst hp₃
    rw [h3]
    simp [String.data_append]
  · exact absurd hp (List.not_mem_nil p)

/-- C9 counterexample: two family keys that differ only in case are
distinct keys of the discovered mapping, yet lower-casing sends them to the
same crate directory, so their three write paths coincide instead of being
disjoint. -/
theorem c9_case_collision :
    (discover ["STM32F401.yaml", "stm32f402.yaml"]).map Prod.fst =
        ["STM32F4", "stm32f4"]
    ∧ ("STM32F4" : String) ≠ "stm32f4"
    ∧ crateDir "STM32F4" = crateDir "stm32f4"
    ∧ famWritePaths "STM32F4" = famWritePaths "stm32f4" := by
  decide

/-- C9 amended: two family keys whose lower-casings differ write into
disjoint locations — none of the three files of one family coincides with
any file of the other — provided the lower-cased keys are non-empty and
free of path separators, which holds for every family key discovery can
produce (a prefix of a glob-matched basename). -/
theorem c9_disjoint_dirs (fam₁ fam₂ : String)
    (h : crateDir fam₁ ≠ crateDir fam₂)
    (h₁ : crateDir fam₁ ≠ "") (h₂ : crateDir fam₂ ≠ "")
    (hs₁ : '/' ∉ (crateDir fam₁).data) (hs₂ : '/' ∉ (crateDir fam₂).data) :
    ∀ p ∈ famWritePaths fam₁, p ∉ famWritePaths fam₂ := by
  intro p hp₁ hp₂
  obtain ⟨s₁, -, hd₁⟩ := famWritePaths_data fam₁ h₁ hs₁ p hp₁
  obtain ⟨s₂, -, hd₂⟩ := famWritePaths_data fam₂ h₂ hs₂ p hp₂
  exact h (String.ext (noSlashSplit _ s₁ _ s₂ hs₁ hs₂ (hd₁.symm.trans hd₂)))

/-- Witness for C9 (amended) at two concrete distinct families. -/
theorem c9_disjoint_dirs_witness :
    pathJoin (crateDir "stm32f4") "Cargo.toml" ∉ famWritePaths "stm32f0" :=
  c9_disjoint_dirs "stm32f4" "stm32f0" (by decide) (by decide) (by decide)
    (by decide) (by decide) _ (by decide)

end Makecrates

